import Mathlib

/-!
Shallow embedding of the job scheduling and admission-control engine of
`trigg3rX/go-backend` (`execute/manager/jobmanager.go` and
`execute/manager/job.go`).

Timestamps and durations are modelled as `Int` nanoseconds, as in Go's
`time.Time`/`time.Duration`; `TimeFrame` and `TimeInterval` are whole
seconds (Go `int`), converted with `nsPerSec` exactly where the source
multiplies by `time.Second`. CPU/memory percentages (Go `float64`) are
modelled as `ℚ`: the source only stores sampled values and compares them
against the thresholds `10.0` and `80.0`, which are exactly representable,
so ordered-field comparison is faithful.  Job status is the raw string the
source stores.  The `jobs` map is an association list with Go map
insert/lookup semantics.
-/

namespace GoBackend

/-- Nanoseconds per second, the factor Go's `time.Duration(n) * time.Second`
applies to a whole-second count. -/
def nsPerSec : Int := 1000000000

/-- The job record: the fields of `types.Job` used by the manager package
(`JobID`, `TimeFrame`, `TimeInterval`, `CreatedAt`, `MaxRetries`, `Status`)
together with the execution-state fields (`CurrentRetries`, `LastExecuted`,
`Error`) read and written by `processJob` and `GetJobDetails`. -/
structure Job where
  jobID : String
  status : String
  createdAt : Int
  lastExecuted : Int
  currentRetries : Int
  maxRetries : Int
  timeFrame : Int
  timeInterval : Int
  error : String
  deriving DecidableEq

/-- `WaitingJob` from jobmanager.go: a job plus the estimated promotion time. -/
structure WaitingJob where
  job : Job
  estimatedTime : Int
  deriving DecidableEq

/-- `SystemResources` from jobmanager.go. -/
structure SystemResources where
  cpuUsage : ℚ
  memoryUsage : ℚ
  maxCPU : ℚ
  maxMemory : ℚ
  deriving DecidableEq

/-- The mutable scheduler state of `JobScheduler`: the jobs registry, the
waiting queue, the ready-queue channel (`jobQueue`), the resource snapshot,
and the set of cron registrations / one-shot initial timers created by
`scheduleJob` (recorded by job id). -/
structure JobScheduler where
  jobs : List (String × Job)
  waitingQueue : List WaitingJob
  jobQueue : List Job
  resources : SystemResources
  cronEntries : List String
  initialTimers : List String
  deriving DecidableEq

/-- Go map insert `m[k] = v`: overwrite the binding if present, else add it. -/
def mapInsert : List (String × Job) → String → Job → List (String × Job)
  | [], k, v => [(k, v)]
  | (k', v') :: rest, k, v =>
      if k' = k then (k, v) :: rest else (k', v') :: mapInsert rest k v

/-- Go map lookup `m[k]` returning `none` for a missing key (nil pointer). -/
def mapLookup : List (String × Job) → String → Option Job
  | [], _ => none
  | (k', v') :: rest, k => if k' = k then some v' else mapLookup rest k

/-- The error value `ErrInvalidTimeframe` from jobmanager.go. -/
def errInvalidTimeframe : String := "invalid timeframe specified"

/-- `NewJobScheduler`: fresh registry, queues and cron, thresholds
`MaxCPU = 10.0`, `MaxMemory = 80.0`; the usage fields start at Go's zero
value `0.0` until the first sampler tick. -/
def newJobScheduler : JobScheduler :=
  { jobs := []
    waitingQueue := []
    jobQueue := []
    resources := { cpuUsage := 0, memoryUsage := 0, maxCPU := 10, maxMemory := 80 }
    cronEntries := []
    initialTimers := [] }

/-- `checkResourceAvailability`: CPU below its max threshold AND memory
below its max threshold. -/
def checkResourceAvailability (js : JobScheduler) : Bool :=
  decide (js.resources.cpuUsage < js.resources.maxCPU) &&
  decide (js.resources.memoryUsage < js.resources.maxMemory)

/-- One step of the loop body of `calculateEstimatedWaitTime`: for a job in
status "processing" with `expectedCompletion = CreatedAt + TimeFrame`
seconds, replace the running earliest time when
`earliestCompletion.After(expectedCompletion)`. -/
def stepEarliest (earliest : Int) (p : String × Job) : Int :=
  if p.2.status = "processing" then
    if p.2.createdAt + p.2.timeFrame * nsPerSec < earliest then
      p.2.createdAt + p.2.timeFrame * nsPerSec
    else earliest
  else earliest

/-- `calculateEstimatedWaitTime`: start from `now + 30s` and scan the
registry for processing jobs, keeping the earliest expected completion. -/
def calculateEstimatedWaitTime (js : JobScheduler) (now : Int) : Int :=
  js.jobs.foldl stepEarliest (now + 30 * nsPerSec)

/-- `scheduleJob`: insert the job into the registry, schedule the one-shot
initial execution (`time.AfterFunc(2*time.Second, ...)`), and register the
recurring cron entry `@every <TimeInterval>s`.  `Cron.AddFunc` never
returns an error here: the standard cron parser feeds the `@every` payload
to `time.ParseDuration`, which accepts every signed whole-second count
(`"0s"`, `"-5s"`, ...), and sub-second or negative delays are clamped to
one second by `cron.Every` — so the error branch of the source is dead and
the returned error is always `nil`. -/
def scheduleJob (js : JobScheduler) (job : Job) : JobScheduler × Option String :=
  ({ js with
      jobs := mapInsert js.jobs job.jobID job
      initialTimers := js.initialTimers ++ [job.jobID]
      cronEntries := js.cronEntries ++ [job.jobID] }, none)

/-- `AddJob`: reject `TimeFrame <= 0` with `ErrInvalidTimeframe`; under
resource pressure append the job to the waiting queue with the estimated
promotion time and return `nil`; otherwise run `scheduleJob`. -/
def AddJob (js : JobScheduler) (job : Job) (now : Int) : JobScheduler × Option String :=
  if job.timeFrame ≤ 0 then (js, some errInvalidTimeframe)
  else if checkResourceAvailability js = false then
    ({ js with
        waitingQueue :=
          js.waitingQueue ++ [⟨job, calculateEstimatedWaitTime js now⟩] }, none)
  else scheduleJob js job

/-- The closure registered by `scheduleJob` with `Cron.AddFunc`, at one
firing instant `now`.  `none` models the nil-pointer dereference that Go
would hit if the job id were absent from the registry when the closure
reads `currentJob.Status`. -/
def cronFire (js : JobScheduler) (job : Job) (now : Int) : Option JobScheduler :=
  if job.timeFrame * nsPerSec < now - job.createdAt then some js
  else
    match mapLookup js.jobs job.jobID with
    | none => none
    | some current =>
        if current.status = "processing" ∨ current.status = "completed" ∨
            current.status = "failed" then some js
        else some { js with jobQueue := js.jobQueue ++ [job] }

/-- The detail map returned by `GetJobDetails`. -/
structure JobDetails where
  jobID : String
  status : String
  createdAt : Int
  lastExecuted : Int
  currentRetries : Int
  timeFrame : Int
  timeInterval : Int
  error : String
  deriving DecidableEq

/-- `GetJobDetails`: `NotFoundError` (here `none`) for a job id absent from
the registry, else the job's detail fields. -/
def GetJobDetails (js : JobScheduler) (jobID : String) : Option JobDetails :=
  match mapLookup js.jobs jobID with
  | none => none
  | some j =>
      some { jobID := j.jobID, status := j.status, createdAt := j.createdAt,
             lastExecuted := j.lastExecuted, currentRetries := j.currentRetries,
             timeFrame := j.timeFrame, timeInterval := j.timeInterval,
             error := j.error }

/-- One capacity-true tick body of `processWaitingQueue`: if the waiting
queue is non-empty, pop its head and run `scheduleJob` on it; a scheduling
error is only logged, the popped job is never re-inserted. -/
def processWaitingQueueTick (js : JobScheduler) : JobScheduler :=
  if checkResourceAvailability js = true then
    match js.waitingQueue with
    | [] => js
    | wj :: rest => (scheduleJob { js with waitingQueue := rest } wj.job).1
  else js

/-- The external outcomes consumed by one run of `processJob`: the default
quorum's `ActiveNodes` list, the simulated execution draw
(`rand.Float64() < 0.8`), and the results of the post-execution dispatch
steps (`loadPeerInfo`, peer-info lookup, `ConnectToPeer`, `SendMessage`). -/
structure ProcEnv where
  activeNodes : List String
  execSuccess : Bool
  peerLoadOk : Bool
  peerFound : Bool
  connectOk : Bool
  sendOk : Bool
  sendErr : String
  deriving DecidableEq

/-- `processJob` from job.go, as the transformation of the job record.
Guard on `completed`/`failed`; mark `processing` and stamp `LastExecuted`;
fail terminally when the default quorum has no active nodes; otherwise the
simulated outcome either completes the job or increments the retry count,
failing at `CurrentRetries >= MaxRetries` and reverting to `pending` below
it; the trailing dispatch section returns early on a peer-info/connection
problem and marks the job failed when `SendMessage` errors.
(`selectRandomKeeper` cannot fail once the quorum check passed: the only
quorum is "default" and its node list was just seen non-empty.) -/
def processJob (j : Job) (now : Int) (env : ProcEnv) : Job :=
  if j.status = "completed" ∨ j.status = "failed" then j
  else
    let j1 : Job := { j with status := "processing", lastExecuted := now }
    if env.activeNodes.isEmpty then
      { j1 with status := "failed", error := "no active keepers available" }
    else
      let j2 : Job :=
        if env.execSuccess then { j1 with status := "completed" }
        else
          if j1.maxRetries ≤ j1.currentRetries + 1 then
            { j1 with currentRetries := j1.currentRetries + 1,
                      status := "failed", error := "maximum retries exceeded" }
          else
            { j1 with currentRetries := j1.currentRetries + 1, status := "pending" }
      if env.peerLoadOk = false then j2
      else if env.peerFound = false then j2
      else if env.connectOk = false then j2
      else if env.sendOk = false then { j2 with status := "failed", error := env.sendErr }
      else j2

/-- The retry-bound invariant maintained by `processJob`: the retry count
stays within the configured maximum, and at the maximum the job is failed. -/
def retryInv (j : Job) : Prop :=
  j.currentRetries ≤ j.maxRetries ∧ (j.currentRetries = j.maxRetries → j.status = "failed")

/-- Modelled from the spec: the estimated promotion time as claim C4 words
it — the minimum over registry jobs in status "processing" of that job's
last-executed time plus its time frame, and `now + 30s` when no registry
job is processing. -/
def estimatedWaitTimeSpec (js : JobScheduler) (now : Int) : Int :=
  match js.jobs.filterMap
      (fun p => if p.2.status = "processing"
                then some (p.2.lastExecuted + p.2.timeFrame * nsPerSec) else none) with
  | [] => now + 30 * nsPerSec
  | c :: cs => cs.foldl min c

/-! ### Helper lemmas -/

theorem mapLookup_mapInsert_self (m : List (String × Job)) (k : String) (v : Job) :
    mapLookup (mapInsert m k v) k = some v := by
  induction m with
  | nil => simp [mapInsert, mapLookup]
  | cons p rest ih =>
      by_cases h : p.1 = k
      · simp [mapInsert, mapLookup, h]
      · simpa [mapInsert, mapLookup, h] using ih

/-! ### Claim theorems -/

/-- C8: for every job with `timeFrame ≤ 0`, `AddJob` returns
`ErrInvalidTimeframe` and leaves the whole scheduler state — in particular
the jobs registry and the waiting queue — unchanged. -/
theorem addJob_rejects_nonpositive_timeframe (js : JobScheduler) (job : Job) (now : Int)
    (h : job.timeFrame ≤ 0) :
    AddJob js job now = (js, some errInvalidTimeframe) := by
  simp [AddJob, h]

def jobBadFrame : Job :=
  { jobID := "w8", status := "pending", createdAt := 0, lastExecuted := 0,
    currentRetries := 0, maxRetries := 3, timeFrame := 0, timeInterval := 5, error := "" }

theorem addJob_rejects_nonpositive_timeframe_witness :
    jobBadFrame.timeFrame ≤ 0 ∧
    AddJob newJobScheduler jobBadFrame 7 = (newJobScheduler, some errInvalidTimeframe) :=
  ⟨by decide, addJob_rejects_nonpositive_timeframe newJobScheduler jobBadFrame 7 (by decide)⟩

/-- C5: once a firing instant satisfies `now − createdAt > timeFrame`
seconds, that firing and every later one is a no-op: the cron closure
returns without touching the ready queue, whatever the job's status. -/
theorem cron_firing_noop_after_timeframe (js : JobScheduler) (job : Job) (now : Int)
    (h : job.timeFrame * nsPerSec < now - job.createdAt) :
    ∀ later, now ≤ later → cronFire js job later = some js := by
  intro later hlater
  have hl : job.timeFrame * nsPerSec < later - job.createdAt := by omega
  simp [cronFire, hl]

def jobAged : Job :=
  { jobID := "w5", status := "pending", createdAt := 0, lastExecuted := 0,
    currentRetries := 0, maxRetries := 3, timeFrame := 10, timeInterval := 2, error := "" }

theorem cron_firing_noop_after_timeframe_witness :
    jobAged.timeFrame * nsPerSec < 10000000001 - jobAged.createdAt ∧
    cronFire (scheduleJob newJobScheduler jobAged).1 jobAged 20000000000 =
      some (scheduleJob newJobScheduler jobAged).1 :=
  ⟨by decide,
   cron_firing_noop_after_timeframe (scheduleJob newJobScheduler jobAged).1 jobAged
     10000000001 (by decide) 20000000000 (by decide)⟩

/-- C6: running `processJob` on a non-terminal job while the default
quorum's active-node list is empty sets the status to "failed" with error
"no active keepers available", leaves `CurrentRetries` unchanged, and the
failure is terminal: every later invocation is a no-op. -/
theorem processJob_no_active_keepers (j : Job) (now : Int) (env : ProcEnv)
    (h1 : j.status ≠ "completed") (h2 : j.status ≠ "failed")
    (h0 : env.activeNodes = []) :
    (processJob j now env).status = "failed" ∧
    (processJob j now env).error = "no active keepers available" ∧
    (processJob j now env).currentRetries = j.currentRetries ∧
    ∀ now' env', processJob (processJob j now env) now' env' = processJob j now env := by
  have hres : processJob j now env =
      { j with status := "failed", lastExecuted := now,
               error := "no active keepers available" } := by
    simp [processJob, h1, h2, h0]
  refine ⟨by rw [hres], by rw [hres], by rw [hres], ?_⟩
  intro now' env'
  rw [hres]
  simp [processJob]

def jobPend : Job :=
  { jobID := "w6", status := "pending", createdAt := 0, lastExecuted := 0,
    currentRetries := 2, maxRetries := 5, timeFrame := 100, timeInterval := 5, error := "" }

def envNoKeepers : ProcEnv :=
  { activeNodes := [], execSuccess := true, peerLoadOk := true, peerFound := true,
    connectOk := true, sendOk := true, sendErr := "" }

theorem processJob_no_active_keepers_witness :
    (processJob jobPend 9 envNoKeepers).status = "failed" ∧
    (processJob jobPend 9 envNoKeepers).error = "no active keepers available" ∧
    (processJob jobPend 9 envNoKeepers).currentRetries = jobPend.currentRetries :=
  have h := processJob_no_active_keepers jobPend 9 envNoKeepers
    (by decide) (by decide) rfl
  ⟨h.1, h.2.1, h.2.2.1⟩

def jobZeroInterval : Job :=
  { jobID := "j3", status := "pending", createdAt := 0, lastExecuted := 0,
    currentRetries := 0, maxRetries := 3, timeFrame := 5, timeInterval := 0, error := "" }

/-- C3 counterexample: on a fresh scheduler (resources available), a job
with `timeInterval = 0` and `timeFrame = 5` is NOT rejected: `AddJob`
returns `nil` and the job sits in the registry. -/
theorem addJob_zero_interval_admitted :
    (AddJob newJobScheduler jobZeroInterval 0).2 = none ∧
    mapLookup (AddJob newJobScheduler jobZeroInterval 0).1.jobs "j3" =
      some jobZeroInterval := by
  decide

/-- C3 amended: `AddJob` validates only `timeFrame`; `timeInterval` is
never checked.  A job with `timeFrame > 0` and `timeInterval ≤ 0` is
admitted with a `nil` error, and when resources are available it is placed
in the registry with a cron registration. -/
theorem addJob_ignores_time_interval (js : JobScheduler) (job : Job) (now : Int)
    (hTF : 0 < job.timeFrame) (_hTI : job.timeInterval ≤ 0) :
    (AddJob js job now).2 = none ∧
    (checkResourceAvailability js = true →
      mapLookup (AddJob js job now).1.jobs job.jobID = some job ∧
      job.jobID ∈ (AddJob js job now).1.cronEntries) := by
  have hTF' : ¬ job.timeFrame ≤ 0 := by omega
  by_cases hc : checkResourceAvailability js = true
  · constructor
    · simp [AddJob, hTF', hc, scheduleJob]
    · intro _
      refine ⟨?_, ?_⟩
      · simp [AddJob, hTF', hc, scheduleJob, mapLookup_mapInsert_self]
      · simp [AddJob, hTF', hc, scheduleJob]
  · have hc' : checkResourceAvailability js = false := by
      revert hc; cases checkResourceAvailability js <;> simp
    constructor
    · simp [AddJob, hTF', hc']
    · intro h; exact absurd h hc

theorem addJob_ignores_time_interval_witness :
    0 < jobZeroInterval.timeFrame ∧ jobZeroInterval.timeInterval ≤ 0 ∧
    (AddJob newJobScheduler jobZeroInterval 0).2 = none :=
  ⟨by decide, by decide,
   (addJob_ignores_time_interval newJobScheduler jobZeroInterval 0
     (by decide) (by decide)).1⟩

/-- C10: a fresh scheduler carries thresholds `MaxCPU = 10.0` and
`MaxMemory = 80.0`; the capacity check is exactly the strict conjunction
`CPUUsage < MaxCPU ∧ MemoryUsage < MaxMemory`; and under those thresholds
every sample with CPU ≥ 10 or memory ≥ 80 makes `AddJob` divert any valid
job to the waiting queue, leaving the registry and cron untouched. -/
theorem scheduler_thresholds_and_pressure_divert (js : JobScheduler) (job : Job) (now : Int) :
    newJobScheduler.resources.maxCPU = 10 ∧
    newJobScheduler.resources.maxMemory = 80 ∧
    (checkResourceAvailability js = true ↔
      js.resources.cpuUsage < js.resources.maxCPU ∧
      js.resources.memoryUsage < js.resources.maxMemory) ∧
    (js.resources.maxCPU = 10 → js.resources.maxMemory = 80 →
      (10 ≤ js.resources.cpuUsage ∨ 80 ≤ js.resources.memoryUsage) →
      0 < job.timeFrame →
      (AddJob js job now).1.jobs = js.jobs ∧
      (AddJob js job now).1.cronEntries = js.cronEntries ∧
      (AddJob js job now).1.waitingQueue =
        js.waitingQueue ++ [⟨job, calculateEstimatedWaitTime js now⟩] ∧
      (AddJob js job now).2 = none) := by
  refine ⟨rfl, rfl, ?_, ?_⟩
  · simp [checkResourceAvailability]
  · intro hcpu hmem hpressure hTF
    have hTF' : ¬ job.timeFrame ≤ 0 := by omega
    have hc : checkResourceAvailability js = false := by
      simp only [checkResourceAvailability, hcpu, hmem, Bool.and_eq_false_iff,
        decide_eq_false_iff_not, not_lt]
      rcases hpressure with h | h
      · left; exact h
      · right; exact h
    simp [AddJob, hTF', hc]

def jobValid10 : Job :=
  { jobID := "w10", status := "pending", createdAt := 0, lastExecuted := 0,
    currentRetries := 0, maxRetries := 3, timeFrame := 60, timeInterval := 5, error := "" }

def jsPressured : JobScheduler :=
  { newJobScheduler with
      resources := { cpuUsage := 10, memoryUsage := 0, maxCPU := 10, maxMemory := 80 } }

theorem scheduler_thresholds_and_pressure_divert_witness :
    (AddJob jsPressured jobValid10 0).1.jobs = jsPressured.jobs ∧
    (AddJob jsPressured jobValid10 0).1.waitingQueue =
      jsPressured.waitingQueue ++ [⟨jobValid10, calculateEstimatedWaitTime jsPressured 0⟩] :=
  have h := (scheduler_thresholds_and_pressure_divert jsPressured jobValid10 0).2.2.2
    rfl rfl (Or.inl (by norm_num [jsPressured, newJobScheduler])) (by decide)
  ⟨h.1, h.2.2.1⟩

/-- C7: on a promoter tick with capacity and a non-empty waiting queue,
exactly the head of the queue is removed (the tail is untouched), it is
re-run through `scheduleJob` — landing in the registry with a cron
registration — and it is never re-inserted into the waiting queue.  -/
theorem waiting_tick_promotes_head (js : JobScheduler) (wj : WaitingJob)
    (rest : List WaitingJob)
    (hc : checkResourceAvailability js = true) (hq : js.waitingQueue = wj :: rest) :
    (processWaitingQueueTick js).waitingQueue = rest ∧
    (processWaitingQueueTick js).jobs = mapInsert js.jobs wj.job.jobID wj.job ∧
    wj.job.jobID ∈ (processWaitingQueueTick js).cronEntries ∧
    (processWaitingQueueTick js).jobQueue = js.jobQueue := by
  simp [processWaitingQueueTick, hc, hq, scheduleJob]

def jsWaiting : JobScheduler :=
  { newJobScheduler with
      waitingQueue := [⟨jobValid10, 0⟩, ⟨jobPend, 0⟩] }

theorem waiting_tick_promotes_head_witness :
    (processWaitingQueueTick jsWaiting).waitingQueue = [⟨jobPend, 0⟩] ∧
    (processWaitingQueueTick jsWaiting).jobs =
      mapInsert jsWaiting.jobs jobValid10.jobID jobValid10 :=
  have h := waiting_tick_promotes_head jsWaiting ⟨jobValid10, 0⟩ [⟨jobPend, 0⟩]
    (by decide) rfl
  ⟨h.1, h.2.1⟩

/-- C9: `GetJobDetails` returns `NotFoundError` exactly when the id is
absent from the registry, otherwise the job's detail fields; and a valid
job admitted under resource pressure goes to the waiting queue, so looking
it up still yields `NotFoundError`. -/
theorem getJobDetails_spec (js : JobScheduler) (id : String) (job : Job) (now : Int) :
    (GetJobDetails js id = none ↔ mapLookup js.jobs id = none) ∧
    (∀ j, mapLookup js.jobs id = some j →
      GetJobDetails js id =
        some { jobID := j.jobID, status := j.status, createdAt := j.createdAt,
               lastExecuted := j.lastExecuted, currentRetries := j.currentRetries,
               timeFrame := j.timeFrame, timeInterval := j.timeInterval,
               error := j.error }) ∧
    (0 < job.timeFrame → checkResourceAvailability js = false →
      mapLookup js.jobs job.jobID = none →
      GetJobDetails (AddJob js job now).1 job.jobID = none) := by
  refine ⟨?_, ?_, ?_⟩
  · unfold GetJobDetails
    cases mapLookup js.jobs id <;> simp
  · intro j hj
    simp [GetJobDetails, hj]
  · intro hTF hc habsent
    have hTF' : ¬ job.timeFrame ≤ 0 := by omega
    simp [AddJob, hTF', hc, GetJobDetails, habsent]

def jsPressured9 : JobScheduler :=
  { newJobScheduler with
      resources := { cpuUsage := 0, memoryUsage := 93, maxCPU := 10, maxMemory := 80 } }

theorem getJobDetails_spec_witness :
    GetJobDetails (AddJob jsPressured9 jobValid10 0).1 jobValid10.jobID = none ∧
    GetJobDetails jsPressured9 "nope" = none :=
  ⟨(getJobDetails_spec jsPressured9 jobValid10.jobID jobValid10 0).2.2
      (by decide) (by decide) rfl,
   (getJobDetails_spec jsPressured9 "nope" jobValid10 0).1.mpr rfl⟩

/-- C1: for a job with positive interval and time frame, fresh to both
structures, `AddJob` returns `nil` and leaves the job in exactly one of
the two states — registered with a recurring cron trigger, or in the
waiting queue — never both, never neither. -/
theorem addJob_scheduled_xor_waiting (js : JobScheduler) (job : Job) (now : Int)
    (_hTI : 0 < job.timeInterval) (hTF : 0 < job.timeFrame)
    (hreg : mapLookup js.jobs job.jobID = none)
    (hwait : ∀ wj ∈ js.waitingQueue, wj.job.jobID ≠ job.jobID) :
    (AddJob js job now).2 = none ∧
    (((mapLookup (AddJob js job now).1.jobs job.jobID = some job ∧
        job.jobID ∈ (AddJob js job now).1.cronEntries) ∧
      ¬ ∃ wj ∈ (AddJob js job now).1.waitingQueue, wj.job.jobID = job.jobID) ∨
     ((∃ wj ∈ (AddJob js job now).1.waitingQueue, wj.job.jobID = job.jobID) ∧
      ¬ (mapLookup (AddJob js job now).1.jobs job.jobID = some job ∧
         job.jobID ∈ (AddJob js job now).1.cronEntries))) := by
  have hTF' : ¬ job.timeFrame ≤ 0 := by omega
  by_cases hc : checkResourceAvailability js = true
  · have hA : AddJob js job now = scheduleJob js job := by
      simp [AddJob, hTF', hc]
    refine ⟨by simp [hA, scheduleJob], Or.inl ⟨⟨?_, ?_⟩, ?_⟩⟩
    · simp [hA, scheduleJob, mapLookup_mapInsert_self]
    · simp [hA, scheduleJob]
    · rw [hA]
      rintro ⟨wj, hmem, hid⟩
      exact hwait wj hmem hid
  · have hc' : checkResourceAvailability js = false := by
      revert hc; cases checkResourceAvailability js <;> simp
    refine ⟨by simp [AddJob, hTF', hc'], Or.inr ⟨?_, ?_⟩⟩
    · refine ⟨⟨job, calculateEstimatedWaitTime js now⟩, ?_, rfl⟩
      simp [AddJob, hTF', hc']
    · rintro ⟨hlook, -⟩
      have : (AddJob js job now).1.jobs = js.jobs := by simp [AddJob, hTF', hc']
      rw [this, hreg] at hlook
      exact Option.noConfusion hlook

def jobFresh1 : Job :=
  { jobID := "w1", status := "pending", createdAt := 0, lastExecuted := 0,
    currentRetries := 0, maxRetries := 3, timeFrame := 60, timeInterval := 5, error := "" }

theorem processJob_mono (j : Job) (now : Int) (env : ProcEnv) :
    j.currentRetries ≤ (processJob j now env).currentRetries := by
  simp only [processJob]
  split_ifs <;> simp

theorem processJob_inv (j : Job) (now : Int) (env : ProcEnv)
    (h : retryInv j) : retryInv (processJob j now env) := by
  obtain ⟨hle, heq⟩ := h
  by_cases hg : j.status = "completed" ∨ j.status = "failed"
  · rw [processJob, if_pos hg]; exact ⟨hle, heq⟩
  · have hlt : j.currentRetries < j.maxRetries :=
      lt_of_le_of_ne hle (fun hc => hg (Or.inr (heq hc)))
    simp only [processJob, if_neg hg]
    split_ifs <;> refine ⟨?_, ?_⟩ <;> simp_all [retryInv] <;> omega

theorem processJob_failed_frozen (j : Job) (now : Int) (env : ProcEnv)
    (h : j.status = "failed") : processJob j now env = j := by
  simp [processJob, h]

/-- C2 amended: across any sequence of `processJob` runs, `CurrentRetries`
is monotonically non-decreasing; the bound `CurrentRetries ≤ MaxRetries`
(with status "failed" once the bound is met) is an invariant preserved by
every run, and it holds initially whenever `MaxRetries ≥ 1` — for
`MaxRetries ≤ 0` a single failing run drives `CurrentRetries` one past the
bound; a "failed" job is frozen: every later run is a no-op. -/
theorem processJob_retry_discipline (j : Job) (now : Int) (env : ProcEnv) :
    j.currentRetries ≤ (processJob j now env).currentRetries ∧
    (retryInv j → retryInv (processJob j now env)) ∧
    (j.status = "failed" → processJob j now env = j) ∧
    (j.currentRetries = 0 → 1 ≤ j.maxRetries → retryInv j) :=
  ⟨processJob_mono j now env,
   fun h => processJob_inv j now env h,
   fun h => processJob_failed_frozen j now env h,
   fun h0 h1 => ⟨by omega, fun hc => absurd hc (by omega)⟩⟩

def jobNoBudget : Job :=
  { jobID := "j2", status := "pending", createdAt := 0, lastExecuted := 0,
    currentRetries := 0, maxRetries := 0, timeFrame := 100, timeInterval := 5, error := "" }

def envExecFail : ProcEnv :=
  { activeNodes := ["node1"], execSuccess := false, peerLoadOk := true, peerFound := true,
    connectOk := true, sendOk := true, sendErr := "" }

/-- C2 counterexample: a job with `MaxRetries = 0` starts within the bound
(`CurrentRetries = 0 ≤ MaxRetries`), yet a single failing run drives
`CurrentRetries` to 1, strictly above `MaxRetries` — the claim's
"never exceeds MaxRetries" fails on the code. -/
theorem processJob_exceeds_zero_max_retries :
    jobNoBudget.currentRetries ≤ jobNoBudget.maxRetries ∧
    jobNoBudget.maxRetries < (processJob jobNoBudget 3 envExecFail).currentRetries := by
  decide

def jobFailedW : Job :=
  { jobID := "wf", status := "failed", createdAt := 0, lastExecuted := 0,
    currentRetries := 5, maxRetries := 5, timeFrame := 100, timeInterval := 5,
    error := "maximum retries exceeded" }

theorem processJob_retry_discipline_witness :
    retryInv (processJob jobPend 4 envExecFail) ∧
    processJob jobFailedW 4 envExecFail = jobFailedW :=
  ⟨(processJob_retry_discipline jobPend 4 envExecFail).2.1
      ⟨by decide, fun hc => absurd hc (by decide)⟩,
   (processJob_retry_discipline jobFailedW 4 envExecFail).2.2.1 rfl⟩

theorem foldl_stepEarliest_le_init (l : List (String × Job)) (e : Int) :
    l.foldl stepEarliest e ≤ e := by
  induction l generalizing e with
  | nil => exact le_refl e
  | cons p l ih =>
      refine le_trans (ih (stepEarliest e p)) ?_
      unfold stepEarliest
      split_ifs <;> omega

theorem foldl_stepEarliest_le_processing (l : List (String × Job)) :
    ∀ (e : Int) (p : String × Job), p ∈ l → p.2.status = "processing" →
      l.foldl stepEarliest e ≤ p.2.createdAt + p.2.timeFrame * nsPerSec := by
  induction l with
  | nil => intro e p hp _; cases hp
  | cons q l ih =>
      intro e p hp hs
      rcases List.mem_cons.mp hp with rfl | hmem
      · refine le_trans (foldl_stepEarliest_le_init l (stepEarliest e p)) ?_
        unfold stepEarliest
        rw [if_pos hs]
        split_ifs <;> omega
      · exact ih (stepEarliest e q) p hmem hs

theorem foldl_stepEarliest_attained (l : List (String × Job)) :
    ∀ e : Int, l.foldl stepEarliest e = e ∨
      ∃ p ∈ l, p.2.status = "processing" ∧
        l.foldl stepEarliest e = p.2.createdAt + p.2.timeFrame * nsPerSec := by
  induction l with
  | nil => intro e; exact Or.inl rfl
  | cons q l ih =>
      intro e
      rcases ih (stepEarliest e q) with h | ⟨p, hp, hs, hval⟩
      · by_cases hq : q.2.status = "processing"
        · by_cases hlt : q.2.createdAt + q.2.timeFrame * nsPerSec < e
          · right
            refine ⟨q, List.mem_cons_self q l, hq, ?_⟩
            rw [List.foldl_cons, h]
            unfold stepEarliest
            rw [if_pos hq, if_pos hlt]
          · left
            rw [List.foldl_cons, h]
            unfold stepEarliest
            rw [if_pos hq, if_neg hlt]
        · left
          rw [List.foldl_cons, h]
          unfold stepEarliest
          rw [if_neg hq]
      · right
        exact ⟨p, List.mem_cons_of_mem q hp, hs,
          by rw [List.foldl_cons]; exact hval⟩

/-- C4 amended: the estimated promotion time computed under resource
pressure is the minimum of `now + 30` seconds and, over all registry jobs
in status "processing", that job's `CreatedAt` (not its last-executed
time) plus its time frame: it never exceeds `now + 30s`, it is a lower
bound of every processing job's `CreatedAt + TimeFrame`, and it is
attained by one of those two forms. -/
theorem calculateEstimatedWaitTime_min (js : JobScheduler) (now : Int) :
    calculateEstimatedWaitTime js now ≤ now + 30 * nsPerSec ∧
    (∀ p ∈ js.jobs, p.2.status = "processing" →
      calculateEstimatedWaitTime js now ≤ p.2.createdAt + p.2.timeFrame * nsPerSec) ∧
    (calculateEstimatedWaitTime js now = now + 30 * nsPerSec ∨
      ∃ p ∈ js.jobs, p.2.status = "processing" ∧
        calculateEstimatedWaitTime js now = p.2.createdAt + p.2.timeFrame * nsPerSec) :=
  ⟨foldl_stepEarliest_le_init js.jobs (now + 30 * nsPerSec),
   fun p hp hs => foldl_stepEarliest_le_processing js.jobs (now + 30 * nsPerSec) p hp hs,
   foldl_stepEarliest_attained js.jobs (now + 30 * nsPerSec)⟩

def jobProcessingC4 : Job :=
  { jobID := "a", status := "processing", createdAt := 0, lastExecuted := 100 * nsPerSec,
    currentRetries := 0, maxRetries := 3, timeFrame := 10, timeInterval := 5, error := "" }

def jsProcessing : JobScheduler :=
  { newJobScheduler with jobs := [("a", jobProcessingC4)] }

/-- C4 counterexample: with a single processing job created at `0`,
last executed at `100s`, time frame `10s`, and `now = 0`, the code
computes `10s` (`CreatedAt + TimeFrame`, below the `30s` default) while
the claim's formula — minimum of last-executed time plus time frame —
gives `110s`. -/
theorem calculateEstimatedWaitTime_ne_claim :
    calculateEstimatedWaitTime jsProcessing 0 = 10 * nsPerSec ∧
    estimatedWaitTimeSpec jsProcessing 0 = 110 * nsPerSec ∧
    calculateEstimatedWaitTime jsProcessing 0 ≠ estimatedWaitTimeSpec jsProcessing 0 := by
  decide

theorem calculateEstimatedWaitTime_min_witness :
    calculateEstimatedWaitTime jsProcessing 0 ≤ 0 + 30 * nsPerSec ∧
    calculateEstimatedWaitTime jsProcessing 0 ≤
      ("a", jobProcessingC4).2.createdAt + ("a", jobProcessingC4).2.timeFrame * nsPerSec :=
  ⟨(calculateEstimatedWaitTime_min jsProcessing 0).1,
   (calculateEstimatedWaitTime_min jsProcessing 0).2.1 ("a", jobProcessingC4)
     (by decide) (by decide)⟩

theorem addJob_scheduled_xor_waiting_witness :
    (AddJob newJobScheduler jobFresh1 0).2 = none ∧
    mapLookup (AddJob newJobScheduler jobFresh1 0).1.jobs jobFresh1.jobID = some jobFresh1 :=
  have h := addJob_scheduled_xor_waiting newJobScheduler jobFresh1 0
    (by decide) (by decide) rfl (by intro wj hmem; cases hmem)
  ⟨h.1, by
    rcases h.2 with ⟨⟨hlook, -⟩, -⟩ | ⟨⟨wj, hmem, -⟩, -⟩
    · exact hlook
    · exact absurd hmem (by
        have : (AddJob newJobScheduler jobFresh1 0).1.waitingQueue = [] := by decide
        simp [this])⟩

end GoBackend
